import Mathlib

/-!
Verification development for the hwdc-2025-mcp-league-starter backend:
a shallow embedding of the LLM model-configuration store
(`src/backend/src/integrations/llm/`), the provider factory, and the MCP
tool-server manager (`src/backend/src/integrations/mcp/`), together with
theorems settling the stated behavioural properties.
-/

set_option autoImplicit false

namespace Hwdc

/-! ## Python string primitives

Python `str.strip()` / `str.lower()` as used by the configuration code.
`str.strip()` with no argument removes ASCII whitespace characters from
both ends (the code never feeds non-ASCII whitespace through these paths).
-/

def isPySpace (c : Char) : Bool :=
  c = ' ' || c = '\t' || c = '\n' || c = '\r' || c = '\x0b' || c = '\x0c'

/-- Python `s.strip()`: drop leading and trailing whitespace. -/
def pyStrip (s : String) : String :=
  ⟨((s.data.dropWhile isPySpace).reverse.dropWhile isPySpace).reverse⟩

/-- Python `s.lower()` (ASCII case folding, which is all the code relies on). -/
def pyLower (s : String) : String :=
  ⟨s.data.map Char.toLower⟩

theorem pyLower_eq_empty_iff (s : String) : pyLower s = "" ↔ s = "" := by
  constructor
  · intro h
    have hdata : s.data.map Char.toLower = [] := congrArg String.data h
    have : s.data = [] := List.map_eq_nil_iff.mp hdata
    cases s
    simp_all
  · intro h
    subst h
    rfl

/-! ## Python dict model

The configuration code manipulates Python dicts keyed by strings.  A
Python dict preserves insertion order; assignment `d[k] = v` replaces the
value in place when `k` is present and appends otherwise.  We model a dict
as an association list together with `dictSet` (assignment) and `dictGet`
(lookup). -/

def dictSet {α : Type} (l : List (String × α)) (k : String) (v : α) :
    List (String × α) :=
  match l with
  | [] => [(k, v)]
  | (k', v') :: t => if k' = k then (k', v) :: t else (k', v') :: dictSet t k v

def dictGet {α : Type} (l : List (String × α)) (k : String) : Option α :=
  match l with
  | [] => none
  | (k', v) :: t => if k' = k then some v else dictGet t k

/-- Python `d.update(u)`: assign every pair of `u` into `d`, left to right. -/
def dictUpdate {α : Type} (d u : List (String × α)) : List (String × α) :=
  u.foldl (fun acc kv => dictSet acc kv.1 kv.2) d

theorem dictGet_dictSet_self {α : Type} (l : List (String × α)) (k : String)
    (v : α) : dictGet (dictSet l k v) k = some v := by
  induction l with
  | nil => simp [dictSet, dictGet]
  | cons hd t ih =>
    obtain ⟨k', v'⟩ := hd
    by_cases hk : k' = k
    · simp [dictSet, dictGet, hk]
    · simp [dictSet, dictGet, hk, ih]

theorem dictGet_dictSet_ne {α : Type} (l : List (String × α)) (k k' : String)
    (v : α) (hne : k ≠ k') : dictGet (dictSet l k v) k' = dictGet l k' := by
  induction l with
  | nil => simp [dictSet, dictGet, hne]
  | cons hd t ih =>
    obtain ⟨k₀, v₀⟩ := hd
    by_cases hk : k₀ = k
    · subst hk
      simp [dictSet, dictGet, hne]
    · simp [dictSet, dictGet, hk, ih]

theorem dictGet_eq_none_of_not_mem {α : Type} (l : List (String × α))
    (k : String) (h : k ∉ l.map Prod.fst) : dictGet l k = none := by
  induction l with
  | nil => rfl
  | cons hd t ih =>
    obtain ⟨k', v'⟩ := hd
    simp only [List.map_cons, List.mem_cons, not_or] at h
    have hne : k' ≠ k := fun he => h.1 he.symm
    simp [dictGet, hne, ih h.2]

theorem dictGet_dictUpdate {α : Type} (d u : List (String × α)) (k : String)
    (hu : (u.map Prod.fst).Nodup) :
    dictGet (dictUpdate d u) k =
      ((dictGet u k).rec (dictGet d k) fun v => some v) := by
  induction u generalizing d with
  | nil => simp [dictUpdate, dictGet]
  | cons hd t ih =>
    obtain ⟨k₀, v₀⟩ := hd
    simp only [List.map_cons, List.nodup_cons] at hu
    have step : dictUpdate d ((k₀, v₀) :: t) = dictUpdate (dictSet d k₀ v₀) t := by
      simp [dictUpdate]
    rw [step, ih _ hu.2]
    by_cases hk : k₀ = k
    · subst hk
      rw [dictGet_eq_none_of_not_mem t k₀ hu.1]
      simp [dictGet, dictGet_dictSet_self]
    · simp only [dictGet, if_neg hk]
      cases hget : dictGet t k with
      | none => simp [dictGet_dictSet_ne d k₀ k v₀ hk]
      | some v => simp

/-- One step bound by fuel of Python `str.replace`: scan left to right,
replace each non-overlapping occurrence of `pat`.  The configuration code
only ever replaces the non-empty literal token, so the empty pattern is
mapped to the identity. -/
def replaceLoop (pat rep : List Char) : Nat → List Char → List Char
  | 0, s => s
  | _ + 1, [] => []
  | fuel + 1, c :: rest =>
    if pat ≠ [] ∧ pat.isPrefixOf (c :: rest) then
      rep ++ replaceLoop pat rep fuel ((c :: rest).drop pat.length)
    else
      c :: replaceLoop pat rep fuel rest

/-- Python `s.replace(pat, rep)` for non-empty `pat`. -/
def pyReplace (s pat rep : String) : String :=
  ⟨replaceLoop pat.data rep.data s.data.length s.data⟩

/-! ## MCP settings (`src/backend/src/integrations/mcp/config.py`)

`MCPSettings` carries the global enablement flag and the allow-list of
server names.  The `enabled_servers` field is normalised at parse time by
the `_parse_enabled_servers` validator (strip each item, drop blanks,
lowercase); `is_server_enabled` then tests lowercased membership. -/

structure MCPSettings where
  enable_mcp_system : Bool
  npx_command : String := "npx"
  base_path : String := "."
  timeout_seconds : Int := 60
  enabled_servers : List String

/-- `config.py::_parse_enabled_servers`, iterable branch:
`items = [str(item).strip() for item in value if str(item).strip()]`
then `[item.lower() for item in items]`. -/
def _parse_enabled_servers (value : List String) : List String :=
  ((value.map pyStrip).filter (fun s => s ≠ "")).map pyLower

/-- An `MCPSettings` as pydantic builds it: the raw allow-list value passes
through the `_parse_enabled_servers` validator. -/
def mkMCPSettings (enable_mcp_system : Bool) (npx_command base_path : String)
    (timeout_seconds : Int) (rawEnabledServers : List String) : MCPSettings :=
  { enable_mcp_system, npx_command, base_path, timeout_seconds,
    enabled_servers := _parse_enabled_servers rawEnabledServers }

/-- `config.py::MCPSettings.is_server_enabled`:
`self.enable_mcp_system and name.lower() in self.enabled_servers`. -/
def MCPSettings.is_server_enabled (self : MCPSettings) (name : String) : Bool :=
  self.enable_mcp_system && decide (pyLower name ∈ self.enabled_servers)

/-! ## MCP server descriptors (`src/backend/src/integrations/mcp/server_params.py`) -/

/-- `server_params.py::MCPServerParams` dataclass. The running-process
machinery behind `command`/`env` is opaque to this development. -/
structure MCPServerParams where
  name : String
  command : String
  args : Option (List String) := none
  env : Option (List (String × String)) := none
  timeout_seconds : Int := 60
  enabled : Bool := true
  description : String := ""
  deriving DecidableEq, Repr

/-- One raw JSON server entry as `_create_params_from_dict` consumes it,
with the dynamic `data.get` accesses already typed:
`name` is `str(data.get("name", ""))`; `command` is `data.get("command")`
when it is a string (`none` when absent or not a string); `enabled` is
`bool(data.get("enabled", True))`; `timeout_seconds` is the `int(...)`
result when it parses (`none` when absent or unparsable, both of which
fall back to the settings default); `env`, `args`, `description` mirror
the remaining fields. -/
structure RawServerEntry where
  name : String
  command : Option String
  enabled : Bool := true
  timeout_seconds : Option Int := none
  env : List (String × String) := []
  args : Option (List String) := none
  description : String := ""

/-- `server_params.py::MCPParamsManager._create_params_from_dict`. -/
def _create_params_from_dict (settings : MCPSettings) (data : RawServerEntry) :
    Option MCPServerParams :=
  let name := pyStrip data.name
  if name = "" then none
  else
    match data.command with
    | none => none
    | some rawCommand =>
      if pyStrip rawCommand = "" then none
      else
        let command := pyReplace rawCommand "\x7bBASE_PATH\x7d" settings.base_path
        let enabled := data.enabled && settings.is_server_enabled name
        let timeout_seconds :=
          match data.timeout_seconds with
          | some t => t
          | none => settings.timeout_seconds
        some { name, command, args := data.args, env := some data.env,
               timeout_seconds, enabled,
               description := pyStrip data.description }

theorem mem_parse_enabled_servers_iff (raw : List String) (x : String)
    (hx : x ≠ "") :
    x ∈ _parse_enabled_servers raw ↔ ∃ e ∈ raw, pyLower (pyStrip e) = x := by
  unfold _parse_enabled_servers
  simp only [List.mem_map, List.mem_filter, decide_eq_true_eq]
  constructor
  · rintro ⟨y, ⟨⟨e, he, rfl⟩, _⟩, rfl⟩
    exact ⟨e, he, rfl⟩
  · rintro ⟨e, he, rfl⟩
    refine ⟨pyStrip e, ⟨⟨e, he, rfl⟩, ?_⟩, rfl⟩
    intro h0
    exact hx (by rw [h0]; rfl)

/-- C9: for every loaded tool-server entry, the computed `enabled` flag is
true iff the entry's own declared flag is truthy, the MCP system is
globally enabled, and the entry's name matches some allow-list entry
case-insensitively (both sides lowercased and stripped). -/
theorem C9_enabled_iff_allowlisted
    (global : Bool) (npx base : String) (tmo : Int) (rawAllow : List String)
    (entry : RawServerEntry) (params : MCPServerParams)
    (h : _create_params_from_dict
        (mkMCPSettings global npx base tmo rawAllow) entry = some params) :
    params.enabled = true ↔
      entry.enabled = true ∧ global = true ∧
        ∃ e ∈ rawAllow, pyLower (pyStrip e) = pyLower (pyStrip entry.name) := by
  unfold _create_params_from_dict at h
  simp only at h
  split at h
  · exact absurd h (by simp)
  next hname =>
    split at h
    · exact absurd h (by simp)
    next rawCommand =>
      split at h
      · exact absurd h (by simp)
      next hcmd =>
        have hp : params.enabled =
            (entry.enabled &&
              (mkMCPSettings global npx base tmo rawAllow).is_server_enabled
                (pyStrip entry.name)) := by
          injection h with h'
          rw [← h']
        rw [hp]
        simp only [MCPSettings.is_server_enabled, mkMCPSettings,
          Bool.and_eq_true, decide_eq_true_eq]
        have hmem := mem_parse_enabled_servers_iff rawAllow
          (pyLower (pyStrip entry.name))
          (fun h0 => hname ((pyLower_eq_empty_iff _).mp h0))
        rw [hmem]

/-! ## LLM model configuration (`src/backend/src/integrations/llm/model_config.py`)

Free-form Python values (`Any`) appearing in `default_params`, overrides
and metadata are modelled by `PVal`. -/

inductive PVal where
  | str : String → PVal
  | int : Int → PVal
  | bool : Bool → PVal
  deriving DecidableEq, Repr

/-- `model_config.py::LLMModelConfig` (pydantic model). -/
structure LLMModelConfig where
  key : String
  provider : String
  model_id : String
  api_key_env : String
  base_url : Option String := none
  default_params : List (String × PVal) := []
  supports_streaming : Bool := true
  metadata : List (String × PVal) := []
  deriving DecidableEq, Repr

/-- `model_config.py::_ensure_no_secrets` validator body: raises when
`value.strip() == "" or "=" in value`; returns `true` when the value is
accepted. -/
def _ensure_no_secrets (value : String) : Bool :=
  !(pyStrip value = "" || value.data.contains '=')

/-- pydantic construction of `LLMModelConfig`: `str_min_length = 1`
requires each string field (and `base_url` when present) to be non-empty,
and `_ensure_no_secrets` screens `api_key_env`.  `none` models a raised
`ValidationError`. -/
def mkLLMModelConfig (key provider model_id api_key_env : String)
    (base_url : Option String) (default_params : List (String × PVal))
    (supports_streaming : Bool) (metadata : List (String × PVal)) :
    Option LLMModelConfig :=
  if key = "" || provider = "" || model_id = "" || api_key_env = "" ||
      base_url = some "" then none
  else if !(_ensure_no_secrets api_key_env) then none
  else some { key, provider, model_id, api_key_env, base_url,
              default_params, supports_streaming, metadata }

/-! ## Provider factory (`src/backend/src/integrations/llm/providers.py`)

The provider SDK constructors (`OpenAIChat`, `Ollama`) are external
collaborators; what the code under verification computes is the keyword
parameter mapping handed to them, so the builders are embedded as
functions returning that mapping.  `get_secret` stands for
`settings.get_secret` (environment lookup). -/

inductive LLMError where
  | notFound (key : String)
  | providerNotConfigured (provider secret_name : String)
  | providerUnsupported (provider : String)
  | validationError
  deriving DecidableEq, Repr

/-- The `config.api_key_env or "OPENAI_API_KEY"` secret-name fallback
(the `secret_name` local of `_build_openai_model`; `api_key_env` is falsy
exactly when empty). -/
def openaiSecretName (config : LLMModelConfig) : String :=
  if config.api_key_env = "" then "OPENAI_API_KEY" else config.api_key_env

/-- The base `params` dict of `_build_openai_model` just before the two
`update` calls: `id`, `api_key`, and `base_url` when the config carries a
truthy one. -/
def openaiBaseParams (config : LLMModelConfig) (api_key : String) :
    List (String × PVal) :=
  let params := [("id", PVal.str config.model_id),
                 ("api_key", PVal.str api_key)]
  match config.base_url with
  | some url => if url = "" then params else dictSet params "base_url" (.str url)
  | none => params

/-- `providers.py::_build_openai_model`, with the final `OpenAIChat(**params)`
call abstracted to the `params` mapping it receives. -/
def _build_openai_model (get_secret : String → Option String)
    (config : LLMModelConfig) (overrides : List (String × PVal)) :
    Except LLMError (List (String × PVal)) :=
  match get_secret (openaiSecretName config) with
  | none => .error (.providerNotConfigured "openai" (openaiSecretName config))
  | some api_key =>
    if api_key = "" then
      .error (.providerNotConfigured "openai" (openaiSecretName config))
    else
      .ok (dictUpdate (dictUpdate (openaiBaseParams config api_key)
            config.default_params) overrides)

/-- The base `params` dict of `_build_ollama_model` before the `update`
calls: `id`, and `host` when the config carries a truthy `base_url`. -/
def ollamaBaseParams (config : LLMModelConfig) : List (String × PVal) :=
  let params := [("id", PVal.str config.model_id)]
  match config.base_url with
  | some url => if url = "" then params else dictSet params "host" (.str url)
  | none => params

/-- `providers.py::_build_ollama_model`, abstracted as above. -/
def _build_ollama_model (config : LLMModelConfig)
    (overrides : List (String × PVal)) : List (String × PVal) :=
  dictUpdate (dictUpdate (ollamaBaseParams config) config.default_params)
    overrides

/-! ## Model configuration store (`src/backend/src/integrations/llm/config_store.py`)

The store owns two files.  The registry file is modelled by the parsed
models list it holds (`none` = file absent): every write the store itself
performs serialises a `LLMModelRegistryFile`, so a present file is a
well-formed registry.  When the registry file is absent,
`_read_models_file` first calls `_write_default_models`, and constructing
the bundled `_DEFAULT_MODELS` raises a pydantic `ValidationError` before
anything is written (the `ollama:llama3.1` default omits the required
`api_key_env` field); that path is therefore modelled as a validation
error leaving the state unchanged.  A store whose constructor
(`_ensure_files`) succeeded always has the registry file present. -/

structure StoreState where
  modelsFile : Option (List LLMModelConfig)
  activeFile : Option String
  deriving DecidableEq, Repr

/-- `config_store.py::ModelConfigStore.list_configs` via `_read_models_file`. -/
def list_configs (s : StoreState) : Except LLMError (List LLMModelConfig) :=
  match s.modelsFile with
  | some models => .ok models
  | none => .error .validationError

/-- `config_store.py::ModelConfigStore.get_config`: linear scan of
`list_configs()`, not-found error carrying the key. -/
def get_config (key : String) (s : StoreState) : Except LLMError LLMModelConfig :=
  match list_configs s with
  | .error e => .error e
  | .ok configs =>
    match configs.find? (fun c => c.key = key) with
    | some c => .ok c
    | none => .error (.notFound key)

/-- `config_store.py::ModelConfigStore._write_active_key`. -/
def _write_active_key (key : String) (s : StoreState) : StoreState :=
  { s with activeFile := some key }

/-- `config_store.py::ModelConfigStore.set_active_model_key`: resolve the
key via `get_config` first (propagating its failure), then overwrite the
pointer file. -/
def set_active_model_key (key : String) (s : StoreState) :
    Except LLMError Unit × StoreState :=
  match get_config key s with
  | .error e => (.error e, s)
  | .ok _ => (.ok (), _write_active_key key s)

/-- The comprehension `{item.key: item for item in self.list_configs()}`
from `upsert_config`. -/
def dictOfConfigs (configs : List LLMModelConfig) :
    List (String × LLMModelConfig) :=
  configs.foldl (fun acc c => dictSet acc c.key c) []

/-- `config_store.py::ModelConfigStore._write_configs`: rewrite the whole
registry file with the given models. -/
def _write_configs (configs : List LLMModelConfig) (s : StoreState) :
    StoreState :=
  { s with modelsFile := some configs }

/-- `config_store.py::ModelConfigStore.upsert_config`: merge by key into
the existing registry and rewrite the file. -/
def upsert_config (config : LLMModelConfig) (s : StoreState) :
    Except LLMError Unit × StoreState :=
  match list_configs s with
  | .error e => (.error e, s)
  | .ok configs =>
    let existing := dictOfConfigs configs
    let updated := dictSet existing config.key config
    (.ok (), _write_configs (updated.map Prod.snd) s)

/-- An attempted upsert from raw field values: pydantic constructs the
`LLMModelConfig` (running `_ensure_no_secrets` and the length checks)
before `upsert_config` ever runs, so a validation failure surfaces before
the store is touched. -/
def upsert_raw (s : StoreState) (key provider model_id api_key_env : String)
    (base_url : Option String) (default_params : List (String × PVal))
    (supports_streaming : Bool) (metadata : List (String × PVal)) :
    Except LLMError Unit × StoreState :=
  match mkLLMModelConfig key provider model_id api_key_env base_url
      default_params supports_streaming metadata with
  | none => (.error .validationError, s)
  | some cfg => upsert_config cfg s

/-! Dictionary lemmas specialised to registries keyed by `c.key`. -/

def keyConsistent (l : List (String × LLMModelConfig)) : Prop :=
  ∀ p ∈ l, p.2.key = p.1

theorem keyConsistent_dictSet (l : List (String × LLMModelConfig))
    (k : String) (v : LLMModelConfig) (hl : keyConsistent l) (hv : v.key = k) :
    keyConsistent (dictSet l k v) := by
  induction l with
  | nil =>
    intro p hp
    simp only [dictSet, List.mem_singleton] at hp
    subst hp
    exact hv
  | cons hd t ih =>
    obtain ⟨k', v'⟩ := hd
    intro p hp
    by_cases hk : k' = k
    · simp only [dictSet, if_pos hk, List.mem_cons] at hp
      rcases hp with rfl | hp
      · exact hv.trans hk.symm
      · exact hl p (List.mem_cons_of_mem _ hp)
    · simp only [dictSet, if_neg hk, List.mem_cons] at hp
      rcases hp with rfl | hp
      · exact hl _ (List.mem_cons_self _ _)
      · exact ih (fun q hq => hl q (List.mem_cons_of_mem _ hq)) p hp

theorem keyConsistent_dictOfConfigs (regs : List LLMModelConfig) :
    keyConsistent (dictOfConfigs regs) := by
  suffices h : ∀ acc : List (String × LLMModelConfig), keyConsistent acc →
      keyConsistent (regs.foldl (fun a c => dictSet a c.key c) acc) by
    exact h [] (by intro p hp; cases hp)
  induction regs with
  | nil => intro acc hacc; exact hacc
  | cons e t ih =>
    intro acc hacc
    exact ih _ (keyConsistent_dictSet acc e.key e hacc rfl)

theorem find?_values_eq_dictGet (l : List (String × LLMModelConfig))
    (hl : keyConsistent l) (k : String) :
    (l.map Prod.snd).find? (fun c => c.key = k) = dictGet l k := by
  induction l with
  | nil => rfl
  | cons hd t ih =>
    obtain ⟨k', v⟩ := hd
    have hv : v.key = k' := hl (k', v) (List.mem_cons_self _ _)
    by_cases hk : k' = k
    · subst hk
      rw [List.map_cons, List.find?_cons_of_pos _ (by simp [hv])]
      simp [dictGet]
    · have hne : ¬(v.key = k) := fun h => hk (hv.symm.trans h)
      rw [List.map_cons, List.find?_cons_of_neg _ (by simp [hne])]
      rw [ih (fun q hq => hl q (List.mem_cons_of_mem _ hq))]
      simp [dictGet, hk]

theorem dictSet_eq_append {α : Type} (l : List (String × α)) (k : String)
    (v : α) (h : k ∉ l.map Prod.fst) : dictSet l k v = l ++ [(k, v)] := by
  induction l with
  | nil => rfl
  | cons hd t ih =>
    obtain ⟨k', v'⟩ := hd
    simp only [List.map_cons, List.mem_cons, not_or] at h
    have hne : k' ≠ k := fun he => h.1 he.symm
    simp [dictSet, hne, ih h.2]

theorem foldl_dictSet_eq_append (regs : List LLMModelConfig) :
    ∀ acc : List (String × LLMModelConfig),
      (regs.map (fun e => e.key)).Nodup →
      (∀ e ∈ regs, e.key ∉ acc.map Prod.fst) →
      regs.foldl (fun a c => dictSet a c.key c) acc =
        acc ++ regs.map (fun e => (e.key, e)) := by
  induction regs with
  | nil => intro acc _ _; simp
  | cons e t ih =>
    intro acc hnodup hfresh
    simp only [List.map_cons, List.nodup_cons] at hnodup
    simp only [List.foldl_cons]
    rw [dictSet_eq_append acc e.key e (hfresh e (List.mem_cons_self _ _))]
    rw [ih (acc ++ [(e.key, e)]) hnodup.2 ?_]
    · simp
    · intro x hx
      simp only [List.map_append, List.mem_append, List.map_cons,
        List.map_nil, List.mem_singleton, not_or]
      constructor
      · exact hfresh x (List.mem_cons_of_mem _ hx)
      · intro hxe
        exact hnodup.1 (hxe ▸ List.mem_map_of_mem (fun c => c.key) hx)

theorem dictOfConfigs_eq_map_pair (regs : List LLMModelConfig)
    (hnodup : (regs.map (fun e => e.key)).Nodup) :
    dictOfConfigs regs = regs.map (fun e => (e.key, e)) := by
  have h := foldl_dictSet_eq_append regs [] hnodup (by simp)
  simpa [dictOfConfigs] using h

theorem dictSet_map_pair_of_mem (regs : List LLMModelConfig)
    (c : LLMModelConfig) (hnodup : (regs.map (fun e => e.key)).Nodup)
    (hmem : c.key ∈ regs.map (fun e => e.key)) :
    dictSet (regs.map (fun e => (e.key, e))) c.key c =
      regs.map (fun e => if e.key = c.key then (c.key, c) else (e.key, e)) := by
  induction regs with
  | nil => cases hmem
  | cons e t ih =>
    simp only [List.map_cons, List.nodup_cons] at hnodup
    by_cases hk : e.key = c.key
    · have ht : ∀ x ∈ t, ¬(x.key = c.key) := by
        intro x hx hxc
        exact hnodup.1 (hk ▸ hxc ▸ List.mem_map_of_mem (fun y => y.key) hx)
      simp only [List.map_cons, dictSet, if_pos hk]
      rw [hk]
      congr 1
      symm
      apply List.map_congr_left
      intro x hx
      exact if_neg (ht x hx)
    · simp only [List.map_cons, List.mem_cons] at hmem
      rcases hmem with hmem | hmem
      · exact absurd hmem.symm hk
      · simp only [List.map_cons, dictSet, if_neg hk]
        congr 1
        exact ih hnodup.2 hmem

/-! ## MCP manager (`src/backend/src/integrations/mcp/manager.py`)

Running `MCPTools` instances are opaque external collaborators; a running
instance is modelled by an abstract handle (a `Nat`).  The effectful part
of `_initialise_single_server` — constructing `MCPTools(**kwargs)` and
entering its context — either yields a handle or raises; it is passed in
as an oracle `start` (`none` = raised exception).  Similarly, whether a
given server's close raises during `shutdown` is the oracle `closeOk`. -/

structure ManagerState where
  servers : List (String × Nat)
  configs : List MCPServerParams
  initialized : Bool
  deriving DecidableEq, Repr

/-- The success effect of `_initialise_single_server` for one enabled
config inside the `asyncio.gather` fan-out: on success the handle is
stored under the config's name (`self._servers[config.name] = mcp_tools`),
on a raised exception the map is left alone (the error is logged by
`_handle_initialization_error`). -/
def initStep (start : MCPServerParams → Option Nat)
    (acc : List (String × Nat)) (cfg : MCPServerParams) :
    List (String × Nat) :=
  match start cfg with
  | some handle => dictSet acc cfg.name handle
  | none => acc

/-- `manager.py::MCPManager.initialize_from_configs`: skip when already
initialised with running servers; record the configs; filter to enabled;
start all enabled servers (gather with `return_exceptions=True`, so one
failure aborts nothing); mark initialised iff at least one startup
succeeded. -/
def initialize_from_configs (start : MCPServerParams → Option Nat)
    (s : ManagerState) (configs : List MCPServerParams) : ManagerState :=
  if s.initialized = true ∧ s.servers ≠ [] then s
  else if configs.filter (fun c => c.enabled) = [] then
    { s with configs := configs }
  else
    { servers := (configs.filter (fun c => c.enabled)).foldl
        (initStep start) s.servers,
      configs := configs,
      initialized :=
        if 0 < (configs.filter (fun c => c.enabled)).countP
            (fun c => (start c).isSome)
        then true else s.initialized }

/-- The per-server close loop of `shutdown`: each running instance's
close is attempted inside its own `try`/`except`; a raise is logged and
collected into `shutdown_errors` without aborting the loop.  Returns the
attempted server names and the collected failing names, in order. -/
def shutdownLoop (closeOk : String → Bool) :
    List (String × Nat) → List String × List String
  | [] => ([], [])
  | (n, _) :: t =>
    let rest := shutdownLoop closeOk t
    (n :: rest.1, if closeOk n then rest.2 else n :: rest.2)

/-- `manager.py::MCPManager.shutdown`: no-op when not initialised or no
servers are running; otherwise close every running instance (tolerating
per-server failures) and clear the map, the tracked configs, and the
initialised flag.  Returns the new state, the attempted close list and
the failed close list. -/
def shutdown (closeOk : String → Bool) (s : ManagerState) :
    ManagerState × List String × List String :=
  if s.initialized = false ∨ s.servers = [] then (s, [], [])
  else
    ({ servers := [], configs := [], initialized := false },
     (shutdownLoop closeOk s.servers).1, (shutdownLoop closeOk s.servers).2)

inductive ReloadErr where
  | notFound (server_name : String)
  | disabled (server_name : String)
  | reloadFailed (server_name : String)
  deriving DecidableEq, Repr

structure ReloadResult where
  server_name : String
  success : Bool
  message : String
  deriving DecidableEq, Repr

/-- Modelled from the spec: `MCPManager.reload_server` belongs to this
repository but its source is not under `src/` — the HTTP router
(`api/v1/mcp_router.py`) imports `reload_mcp_server` and the unit tests
(`tests/unit/integrations/mcp/test_manager.py`) call
`mcp_manager.reload_server`, yet `manager.py` as shipped stops at
`shutdown`.  Spec §4.4 "Reload one server": re-fetch the current
descriptor set; the server named `name` must be present in the fresh
batch and enabled, else fail with not-found (absent) or disabled
(present but disabled) — these checks happen before touching any running
process; then tear down any old instance (best-effort), start a new one
from the refreshed descriptor, replace the map entry and the tracked
descriptor (append if new).  A start failure raises reload-failed.
`fetch` stands for `params_manager.get_default_params()` and `start` for
the startup effect. -/
def reload_server (fetch : List MCPServerParams)
    (start : MCPServerParams → Option Nat) (name : String)
    (s : ManagerState) : Except ReloadErr ReloadResult × ManagerState :=
  match fetch.find? (fun d => d.name = name) with
  | none => (.error (.notFound name), s)
  | some d =>
    if d.enabled = false then (.error (.disabled name), s)
    else
      match start d with
      | none => (.error (.reloadFailed name), s)
      | some handle =>
        (.ok { server_name := name, success := true,
               message := "reloaded successfully" },
         { s with servers := dictSet s.servers name handle,
                  configs :=
                    (dictSet (s.configs.map (fun c => (c.name, c))) name d).map
                      Prod.snd })

theorem foldl_initStep_dictGet_of_not_mem
    (start : MCPServerParams → Option Nat) (configs : List MCPServerParams)
    (n : String) : ∀ acc : List (String × Nat),
    (∀ c ∈ configs, c.name ≠ n) →
    dictGet (configs.foldl (initStep start) acc) n = dictGet acc n := by
  induction configs with
  | nil => intro acc _; rfl
  | cons c t ih =>
    intro acc hne
    rw [List.foldl_cons, ih _ (fun x hx => hne x (List.mem_cons_of_mem _ hx))]
    unfold initStep
    cases start c with
    | none => rfl
    | some handle =>
      exact dictGet_dictSet_ne acc c.name n handle (hne c (List.mem_cons_self _ _))

theorem foldl_initStep_dictGet (start : MCPServerParams → Option Nat)
    (configs : List MCPServerParams) :
    ∀ acc : List (String × Nat),
    (configs.map (fun c => c.name)).Nodup →
    (∀ c ∈ configs, dictGet acc c.name = none) →
    ∀ cfg ∈ configs,
      dictGet (configs.foldl (initStep start) acc) cfg.name = start cfg := by
  induction configs with
  | nil => intro acc _ _ cfg hcfg; cases hcfg
  | cons c t ih =>
    intro acc hnodup hacc cfg hcfg
    simp only [List.map_cons, List.nodup_cons] at hnodup
    rw [List.foldl_cons]
    rcases List.mem_cons.mp hcfg with rfl | hmem
    · rw [foldl_initStep_dictGet_of_not_mem start t cfg.name _ ?fresh]
      case fresh =>
        intro x hx hxn
        exact hnodup.1 (hxn ▸ List.mem_map_of_mem (fun y => y.name) hx)
      unfold initStep
      cases hs : start cfg with
      | none => exact (hacc cfg (List.mem_cons_self _ _)).trans rfl
      | some handle => exact dictGet_dictSet_self acc cfg.name handle
    · refine ih (initStep start acc c) hnodup.2 ?_ cfg hmem
      intro x hx
      have hxc : x.name ≠ c.name := by
        intro he
        exact hnodup.1 (he ▸ List.mem_map_of_mem (fun y => y.name) hx)
      unfold initStep
      cases start c with
      | none => exact hacc x (List.mem_cons_of_mem _ hx)
      | some handle =>
        rw [dictGet_dictSet_ne acc c.name x.name handle (fun he => hxc he.symm)]
        exact hacc x (List.mem_cons_of_mem _ hx)

theorem shutdownLoop_fst (closeOk : String → Bool)
    (l : List (String × Nat)) : (shutdownLoop closeOk l).1 = l.map Prod.fst := by
  induction l with
  | nil => rfl
  | cons hd t ih =>
    obtain ⟨n, v⟩ := hd
    simp [shutdownLoop, ih]

/-- Evaluation of `C9_enabled_iff_allowlisted` on a concrete entry: the
allow-list entry differs from the server name only in case and
surrounding whitespace, and the computed flag is true. -/
theorem C9_enabled_iff_allowlisted_witness :
    ∃ e ∈ ["FileSystem "], pyLower (pyStrip e) = pyLower (pyStrip " filesystem") :=
  ((C9_enabled_iff_allowlisted true "npx" "." 60 ["FileSystem "]
      { name := " filesystem", command := some "run.js" }
      { name := "filesystem", command := "run.js", args := none,
        env := some [], timeout_seconds := 60, enabled := true,
        description := "" }
      (by decide)).mp (by decide)).2.2

def demoCfg : LLMModelConfig :=
  { key := "openai:gpt-4o-mini", provider := "openai",
    model_id := "gpt-4o-mini", api_key_env := "OPENAI_API_KEY" }

def demoCfg2 : LLMModelConfig :=
  { key := "ollama:llama3.1", provider := "ollama",
    model_id := "llama3.1", api_key_env := "OLLAMA_KEY" }

/-- C3: `set_active_model_key(k)` for a key absent from the registry fails
with the not-found error propagated from `get_config`, and the store state
(in particular the active-pointer file content) is exactly unchanged. -/
theorem C3_set_active_unknown_key_fails_without_write
    (s : StoreState) (regs : List LLMModelConfig) (k : String)
    (hfile : s.modelsFile = some regs)
    (habsent : ∀ c ∈ regs, c.key ≠ k) :
    set_active_model_key k s = (.error (.notFound k), s) := by
  have hfind : regs.find? (fun c => c.key = k) = none := by
    rw [List.find?_eq_none]
    intro c hc
    simp [habsent c hc]
  unfold set_active_model_key get_config list_configs
  rw [hfile]
  simp only
  rw [hfind]

/-- Evaluation of `C3_set_active_unknown_key_fails_without_write` on a
one-entry registry and an unknown key: the failed call leaves the prior
active key in place. -/
theorem C3_set_active_unknown_key_fails_without_write_witness :
    set_active_model_key "missing:model"
        ⟨some [demoCfg], some "openai:gpt-4o-mini"⟩ =
      (.error (.notFound "missing:model"),
        ⟨some [demoCfg], some "openai:gpt-4o-mini"⟩) :=
  C3_set_active_unknown_key_fails_without_write _ [demoCfg] "missing:model"
    rfl (by decide)

/-- C4: after `upsert_config(c)` on any prior registry, `get_config(c.key)`
succeeds and returns exactly `c`. -/
theorem C4_upsert_get_roundtrip (s : StoreState) (regs : List LLMModelConfig)
    (c : LLMModelConfig) (hfile : s.modelsFile = some regs) :
    (upsert_config c s).1 = .ok () ∧
      get_config c.key (upsert_config c s).2 = .ok c := by
  unfold upsert_config list_configs
  rw [hfile]
  simp only
  refine ⟨by trivial, ?_⟩
  unfold get_config list_configs _write_configs
  simp only
  rw [find?_values_eq_dictGet _
    (keyConsistent_dictSet _ _ _ (keyConsistent_dictOfConfigs regs) rfl) c.key]
  rw [dictGet_dictSet_self]

/-- Evaluation of `C4_upsert_get_roundtrip`: upserting over a registry that
already contains a different key, then reading the upserted key back. -/
theorem C4_upsert_get_roundtrip_witness :
    (upsert_config demoCfg2 ⟨some [demoCfg], none⟩).1 = .ok () ∧
      get_config demoCfg2.key
        (upsert_config demoCfg2 ⟨some [demoCfg], none⟩).2 = .ok demoCfg2 :=
  C4_upsert_get_roundtrip _ [demoCfg] demoCfg2 rfl

/-- C5: an attempted upsert whose `api_key_env` is blank (empty or only
whitespace) or contains `=` fails validation at configuration
construction, before any write: the registry file keeps its prior
content. -/
theorem C5_invalid_api_key_env_fails_before_write
    (s : StoreState) (key provider model_id api_key_env : String)
    (base_url : Option String) (default_params : List (String × PVal))
    (supports_streaming : Bool) (metadata : List (String × PVal))
    (hbad : pyStrip api_key_env = "" ∨ '=' ∈ api_key_env.data) :
    upsert_raw s key provider model_id api_key_env base_url default_params
        supports_streaming metadata = (.error .validationError, s) := by
  have hval : _ensure_no_secrets api_key_env = false := by
    unfold _ensure_no_secrets
    rcases hbad with h | h
    · simp [h]
    · simp [h]
  unfold upsert_raw mkLLMModelConfig
  rw [hval]
  simp

/-- Evaluation of `C5_invalid_api_key_env_fails_before_write`: an
`api_key_env` carrying a literal `NAME=value` secret is rejected and the
one-entry registry file is untouched. -/
theorem C5_invalid_api_key_env_fails_before_write_witness :
    upsert_raw ⟨some [demoCfg], none⟩ "k" "openai" "m"
        "OPENAI_API_KEY=sk-123" none [] true [] =
      (.error .validationError, ⟨some [demoCfg], none⟩) :=
  C5_invalid_api_key_env_fails_before_write _ "k" "openai" "m"
    "OPENAI_API_KEY=sk-123" none [] true [] (Or.inr (by decide))

/-- C10: `upsert_config` preserves registry order: an existing same-key
entry is replaced at its position, a new key is appended at the end, and
every other entry is unchanged and keeps its relative position. -/
theorem C10_upsert_preserves_order (s : StoreState)
    (regs : List LLMModelConfig) (c : LLMModelConfig)
    (hfile : s.modelsFile = some regs)
    (hnodup : (regs.map (fun e => e.key)).Nodup) :
    (upsert_config c s).2.modelsFile = some (
      if c.key ∈ regs.map (fun e => e.key) then
        regs.map (fun e => if e.key = c.key then c else e)
      else regs ++ [c]) := by
  unfold upsert_config list_configs _write_configs
  rw [hfile]
  simp only
  rw [dictOfConfigs_eq_map_pair regs hnodup]
  by_cases hmem : c.key ∈ regs.map (fun e => e.key)
  · rw [if_pos hmem, dictSet_map_pair_of_mem regs c hnodup hmem]
    congr 1
    rw [List.map_map]
    apply List.map_congr_left
    intro x _
    by_cases hxc : x.key = c.key
    · simp [hxc]
    · simp [hxc]
  · rw [if_neg hmem]
    rw [dictSet_eq_append _ _ _ (by simpa using hmem)]
    simp only [List.map_append, List.map_map, List.map_cons, List.map_nil]
    congr 1
    congr 1
    exact List.map_congr_left (fun x _ => rfl) |>.trans (List.map_id regs)

theorem dictGet_dictUpdate_or {α : Type} (d u : List (String × α))
    (k : String) (hu : (u.map Prod.fst).Nodup) :
    dictGet (dictUpdate d u) k = (dictGet u k).or (dictGet d k) := by
  rw [dictGet_dictUpdate d u k hu]
  cases dictGet u k <;> rfl

/-- C6: the parameter mapping handed to the provider constructor layers,
lowest to highest, built-in required fields (model id, resolved secret,
base URL if set), then `default_params`, then caller overrides: per key,
a later layer wins and keys absent from later layers keep earlier
values.  Stated for both the OpenAI and the Ollama builder. -/
theorem C6_parameter_precedence
    (get_secret : String → Option String) (config : LLMModelConfig)
    (overrides p : List (String × PVal)) (api_key : String)
    (hdp : (config.default_params.map Prod.fst).Nodup)
    (hov : (overrides.map Prod.fst).Nodup)
    (hsec : get_secret (openaiSecretName config) = some api_key)
    (hok : _build_openai_model get_secret config overrides = .ok p) :
    (∀ k, dictGet p k =
        ((dictGet overrides k).or
          ((dictGet config.default_params k).or
            (dictGet (openaiBaseParams config api_key) k)))) ∧
    (∀ k, dictGet (_build_ollama_model config overrides) k =
        ((dictGet overrides k).or
          ((dictGet config.default_params k).or
            (dictGet (ollamaBaseParams config) k)))) := by
  constructor
  · have hp : p = dictUpdate (dictUpdate (openaiBaseParams config api_key)
        config.default_params) overrides := by
      unfold _build_openai_model at hok
      rw [hsec] at hok
      simp only at hok
      split at hok
      · cases hok
      · injection hok with h
        exact h.symm
    intro k
    rw [hp, dictGet_dictUpdate_or _ _ _ hov, dictGet_dictUpdate_or _ _ _ hdp]
  · intro k
    unfold _build_ollama_model
    rw [dictGet_dictUpdate_or _ _ _ hov, dictGet_dictUpdate_or _ _ _ hdp]

def cfgC6 : LLMModelConfig :=
  { demoCfg with base_url := some "https://proxy.local",
                 default_params := [("temperature", PVal.int 7)] }

/-- Evaluation of `C6_parameter_precedence`: an override replaces the
same-keyed default parameter in the final mapping. -/
theorem C6_parameter_precedence_witness :
    dictGet [("id", PVal.str "gpt-4o-mini"), ("api_key", PVal.str "sk-1"),
             ("base_url", PVal.str "https://proxy.local"),
             ("temperature", PVal.int 9)] "temperature" =
      some (PVal.int 9) :=
  ((C6_parameter_precedence (fun _ => some "sk-1") cfgC6
      [("temperature", PVal.int 9)]
      [("id", PVal.str "gpt-4o-mini"), ("api_key", PVal.str "sk-1"),
       ("base_url", PVal.str "https://proxy.local"),
       ("temperature", PVal.int 9)]
      "sk-1" (by decide) (by decide) rfl rfl).1
    "temperature").trans (by decide)

/-- Evaluation of `C10_upsert_preserves_order` in the replace branch: the
entry with the matching key is replaced in place, its neighbour kept. -/
theorem C10_upsert_preserves_order_witness :
    (upsert_config { demoCfg with model_id := "gpt-4o" }
        ⟨some [demoCfg2, demoCfg], none⟩).2.modelsFile =
      some [demoCfg2, { demoCfg with model_id := "gpt-4o" }] :=
  (C10_upsert_preserves_order _ [demoCfg2, demoCfg]
    { demoCfg with model_id := "gpt-4o" } rfl (by decide)).trans (by decide)

/-- C1: `reload_server(x)` against a freshly fetched descriptor batch that
lacks `x` fails with not-found; against a batch whose `x` descriptor is
disabled it fails with disabled; in both cases the manager state — in
particular the running-server map — is exactly unchanged. -/
theorem C1_reload_failure_modes_leave_state_unchanged
    (fetch : List MCPServerParams) (start : MCPServerParams → Option Nat)
    (x : String) (s : ManagerState) :
    ((∀ d ∈ fetch, d.name ≠ x) →
      reload_server fetch start x s = (.error (.notFound x), s)) ∧
    (∀ d, fetch.find? (fun d => d.name = x) = some d → d.enabled = false →
      reload_server fetch start x s = (.error (.disabled x), s)) := by
  constructor
  · intro habsent
    have hfind : fetch.find? (fun d => d.name = x) = none := by
      rw [List.find?_eq_none]
      intro d hd
      simp [habsent d hd]
    unfold reload_server
    rw [hfind]
  · intro d hfind hdis
    unfold reload_server
    rw [hfind]
    simp [hdis]

/-! ## Tool attachment
(`src/backend/src/usecases/conversation/conversation_usecase.py`) -/

/-- `models/mcp.py::MCPToolSelection`: a target server name and an
optional list of function names to enable. -/
structure MCPToolSelection where
  server : String
  functions : Option (List String) := none
  deriving DecidableEq, Repr

/-- The function-filter computation of `_attach_requested_tools` for one
selection: `functions` stays `None` unless `selection.functions` is
truthy; names are stripped, blank names dropped; a filter emptied by the
cleaning collapses back to `None`. -/
def cleanFunctions (fns : Option (List String)) : Option (List String) :=
  match fns with
  | none => none
  | some fs =>
    if fs = [] then none
    else
      if (fs.map (fun n => pyStrip n)).filter (fun n => n ≠ "") = [] then none
      else some ((fs.map (fun n => pyStrip n)).filter (fun n => n ≠ ""))

/-- The fetch sequence the body of `_attach_requested_tools` prescribes
(and which the unit tests in `test_attach_requested_tools.py` observe by
mocking `get_mcp_toolkit`): per non-skipped selection, one fetch carrying
the stripped server name and the cleaned function filter.  `seen` is the
dedupe set.  This is the intended behaviour only: see `attachFetchesRun`
for what the shipped program actually does at the fetch call. -/
def attachFetches : List MCPToolSelection → List String →
    List (String × Option (List String))
  | [], _ => []
  | sel :: rest, seen =>
    if pyStrip sel.server = "" ∨ pyStrip sel.server ∈ seen then
      attachFetches rest seen
    else
      (pyStrip sel.server, cleanFunctions sel.functions) ::
        attachFetches rest (pyStrip sel.server :: seen)

inductive PyRunError where
  | typeError
  deriving DecidableEq, Repr

/-- `_attach_requested_tools` as it actually executes against the shipped
`get_mcp_toolkit`: the usecase calls
`get_mcp_toolkit(server_name, allowed_functions=functions)`, but the
`get_mcp_toolkit` shipped in `src/integrations/mcp/__init__.py` (line 82,
and equally the one in `manager.py` line 333) accepts only `server_name`,
so Python raises `TypeError` for the unexpected keyword before the
function body runs.  Blank and already-seen selections are skipped as in
the source, but the first selection that reaches the fetch aborts the
whole loop with the error; no later selection is ever fetched. -/
def attachFetchesRun : List MCPToolSelection → List String →
    Except PyRunError (List (String × Option (List String)))
  | [], _ => .ok []
  | sel :: rest, seen =>
    if pyStrip sel.server = "" ∨ pyStrip sel.server ∈ seen then
      attachFetchesRun rest seen
    else
      .error .typeError

/-- C7 (code bug): the attach loop is written to fetch each unique
non-blank server exactly once with a cleaned filter — on two distinct
non-blank selections, `attachFetches` performs the two claimed fetches —
but run against the shipped one-parameter `get_mcp_toolkit`, the first
fetch's `allowed_functions=` keyword raises `TypeError` and aborts the
loop, so the second unique server is never fetched and the
exactly-one-fetch-per-unique-server property fails on the program as
shipped. -/
theorem C7_first_fetch_type_error_aborts_attach :
    attachFetches
        [{ server := "alpha", functions := none },
         { server := "beta", functions := none }] [] =
      [("alpha", none), ("beta", none)] ∧
    attachFetchesRun
        [{ server := "alpha", functions := none },
         { server := "beta", functions := none }] [] =
      .error .typeError := by
  constructor
  · rfl
  · rfl

def srvDisabled : MCPServerParams :=
  { name := "search", command := "npx run-search", enabled := false }

def mgrLive : ManagerState :=
  { servers := [("files", 7)], configs := [], initialized := true }

/-- Evaluation of `C1_reload_failure_modes_leave_state_unchanged` on a
batch holding only a disabled `search` descriptor: reloading `files`
is not-found, reloading `search` is disabled, and the live manager state
survives both. -/
theorem C1_reload_failure_modes_leave_state_unchanged_witness :
    reload_server [srvDisabled] (fun _ => some 9) "files" mgrLive =
      (.error (.notFound "files"), mgrLive) ∧
    reload_server [srvDisabled] (fun _ => some 9) "search" mgrLive =
      (.error (.disabled "search"), mgrLive) :=
  ⟨(C1_reload_failure_modes_leave_state_unchanged [srvDisabled]
      (fun _ => some 9) "files" mgrLive).1 (by decide),
   (C1_reload_failure_modes_leave_state_unchanged [srvDisabled]
      (fun _ => some 9) "search" mgrLive).2 srvDisabled (by decide) rfl⟩

/-- C2: `initialize_from_configs` on an uninitialised manager with a list
of enabled descriptors: the manager ends initialised iff at least one
startup succeeded, and each server is present in the running map under
its name iff its startup succeeded — one startup failure never prevents
a sibling from being recorded. -/
theorem C2_partial_success_initialization
    (start : MCPServerParams → Option Nat) (configs : List MCPServerParams)
    (s : ManagerState) (hinit : s.initialized = false)
    (hempty : s.servers = [])
    (henabled : ∀ cfg ∈ configs, cfg.enabled = true)
    (hnodup : (configs.map (fun c => c.name)).Nodup) :
    ((initialize_from_configs start s configs).initialized = true ↔
      ∃ cfg ∈ configs, (start cfg).isSome = true) ∧
    ∀ cfg ∈ configs,
      dictGet (initialize_from_configs start s configs).servers cfg.name =
        start cfg := by
  have hguard : ¬(s.initialized = true ∧ s.servers ≠ []) := by
    simp [hinit]
  have hfilter : configs.filter (fun c => c.enabled) = configs :=
    List.filter_eq_self.mpr henabled
  unfold initialize_from_configs
  rw [if_neg hguard]
  simp only [hfilter]
  by_cases hc : configs = []
  · subst hc
    constructor
    · simp [hinit]
    · intro cfg hcfg; cases hcfg
  · rw [if_neg hc]
    constructor
    · simp only [hinit]
      by_cases hpos : 0 < configs.countP (fun c => (start c).isSome)
      · rw [if_pos hpos]
        exact iff_of_true rfl (List.countP_pos_iff.mp hpos)
      · rw [if_neg hpos]
        refine iff_of_false (by simp) ?_
        intro hex
        exact hpos (List.countP_pos_iff.mpr hex)
    · intro cfg hcfg
      rw [hempty]
      exact foldl_initStep_dictGet start configs [] hnodup
        (fun c _ => rfl) cfg hcfg

def cfgAlpha : MCPServerParams := { name := "alpha", command := "npx a" }

def cfgBeta : MCPServerParams := { name := "beta", command := "npx b" }

def startOnlyAlpha : MCPServerParams → Option Nat :=
  fun c => if c.name = "alpha" then some 1 else none

/-- Evaluation of `C2_partial_success_initialization` where `alpha`
starts and `beta` raises: the manager is initialised, `alpha` is
recorded, `beta` is absent. -/
theorem C2_partial_success_initialization_witness :
    (initialize_from_configs startOnlyAlpha ⟨[], [], false⟩
        [cfgAlpha, cfgBeta]).initialized = true ∧
    dictGet (initialize_from_configs startOnlyAlpha ⟨[], [], false⟩
        [cfgAlpha, cfgBeta]).servers "alpha" = some 1 ∧
    dictGet (initialize_from_configs startOnlyAlpha ⟨[], [], false⟩
        [cfgAlpha, cfgBeta]).servers "beta" = none := by
  have h := C2_partial_success_initialization startOnlyAlpha
    [cfgAlpha, cfgBeta] ⟨[], [], false⟩ rfl rfl (by decide) (by decide)
  refine ⟨h.1.mpr ⟨cfgAlpha, by decide, by decide⟩, ?_, ?_⟩
  · exact (h.2 cfgAlpha (by decide)).trans (by decide)
  · exact (h.2 cfgBeta (by decide)).trans (by decide)

/-- C8: `shutdown()` on a manager that is uninitialised or has no running
servers returns with no state change; otherwise every running instance's
close is attempted (a failing close never prevents the others) and the
final state has an empty running map, an empty tracked descriptor list,
and a cleared initialised flag, however many closes failed. -/
theorem C8_shutdown_attempts_all_and_clears
    (closeOk : String → Bool) (s : ManagerState) :
    (s.initialized = false ∨ s.servers = [] →
      shutdown closeOk s = (s, [], [])) ∧
    (s.initialized = true → s.servers ≠ [] →
      (shutdown closeOk s).2.1 = s.servers.map Prod.fst ∧
      (shutdown closeOk s).1 =
        { servers := [], configs := [], initialized := false }) := by
  constructor
  · intro h
    unfold shutdown
    rw [if_pos h]
  · intro h1 h2
    have hneg : ¬(s.initialized = false ∨ s.servers = []) := by
      simp [h1, h2]
    unfold shutdown
    rw [if_neg hneg]
    exact ⟨shutdownLoop_fst closeOk s.servers, rfl⟩

def mgrTwo : ManagerState :=
  { servers := [("files", 7), ("search", 8)], configs := [srvDisabled],
    initialized := true }

/-- Evaluation of `C8_shutdown_attempts_all_and_clears`: a no-op on an
uninitialised manager, and on a live manager whose `search` close raises,
both closes are still attempted and the state is fully cleared. -/
theorem C8_shutdown_attempts_all_and_clears_witness :
    shutdown (fun _ => false) ⟨[], [srvDisabled], false⟩ =
      (⟨[], [srvDisabled], false⟩, [], []) ∧
    (shutdown (fun n => decide (n = "files")) mgrTwo).2.1 =
      ["files", "search"] ∧
    (shutdown (fun n => decide (n = "files")) mgrTwo).1 = ⟨[], [], false⟩ :=
  ⟨(C8_shutdown_attempts_all_and_clears (fun _ => false)
      ⟨[], [srvDisabled], false⟩).1 (Or.inl rfl),
   ((C8_shutdown_attempts_all_and_clears (fun n => decide (n = "files"))
      mgrTwo).2 rfl (by decide)).1.trans (by decide),
   ((C8_shutdown_attempts_all_and_clears (fun n => decide (n = "files"))
      mgrTwo).2 rfl (by decide)).2⟩

end Hwdc
